import Mathlib

/-!
Shallow embedding of the lab3 frontend's pure computation kernels, together
with proofs of the behavioural claims about them.

Each definition below is transcribed from a named function of the repository
(file and symbol are cited in the doc comment).  Scores, coordinates and
game times, which are JavaScript numbers in the source, are modelled as
rationals; item names and replay states, which are JavaScript strings, are
modelled as Lean strings (or lists of characters where character-level
manipulation is involved).
-/

namespace Lab3

/-! ### Grade banding (`scoreGrade`) -/

/-- `scoreGrade` as written in `frontend/src/components/AnalysisDisplay.tsx`
lines 18-25. -/
def scoreGradeAnalysisDisplay (score : ℚ) : String :=
  if score ≥ 90 then "S"
  else if score ≥ 80 then "A"
  else if score ≥ 70 then "B"
  else if score ≥ 60 then "C"
  else if score ≥ 50 then "D"
  else "F"

/-- `scoreGrade` as written in
`frontend/src/components/HeroPerformanceTable.tsx` lines 114-121. -/
def scoreGradeHeroPerformanceTable (score : ℚ) : String :=
  if score ≥ 90 then "S"
  else if score ≥ 80 then "A"
  else if score ≥ 70 then "B"
  else if score ≥ 60 then "C"
  else if score ≥ 50 then "D"
  else "F"

/-- `scoreGrade` as written in `src/unnamed/part_017` lines 18-25. -/
def scoreGradePart017 (score : ℚ) : String :=
  if score ≥ 90 then "S"
  else if score ≥ 80 then "A"
  else if score ≥ 70 then "B"
  else if score ≥ 60 then "C"
  else if score ≥ 50 then "D"
  else "F"

/-! ### Fetch-replay gating (`canFetchReplay`, `src/unnamed/part_008`) -/

/-- `canFetchReplay` from `MatchHeader` (`src/unnamed/part_008` lines 36-42):
the Fetch Replay button is offered only when the replay state is none of
`parsed`, `parsing`, `downloading`, `unavailable`, `expired`. -/
def canFetchReplay (replay_state : String) : Bool :=
  replay_state != "parsed" &&
  replay_state != "parsing" &&
  replay_state != "downloading" &&
  replay_state != "unavailable" &&
  replay_state != "expired"

/-! ### Win-rate display (`HeroPerformanceTable` chunk of
`frontend/src/api/matches.ts`, lines 714-718) -/

/-- Model of JavaScript `x.toFixed(1)` for the non-negative exact rationals
produced by the win-rate computation: round to the nearest tenth (ties away
from zero, i.e. upwards for non-negative values) and print with one decimal
digit. -/
def jsToFixed1 (q : ℚ) : String :=
  toString (⌊q * 10 + 1/2⌋ / 10) ++ "." ++ toString (⌊q * 10 + 1/2⌋ % 10)

/-- The `winRate` expression of `HeroPerformanceTable`
(`frontend/src/api/matches.ts` lines 714-718):
`h.matches_played > 0 ? ((h.wins / h.matches_played) * 100).toFixed(1) : '0.0'`. -/
def winRateDisplay (wins matches_played : ℕ) : String :=
  if matches_played > 0 then
    jsToFixed1 (((wins : ℚ) / (matches_played : ℚ)) * 100)
  else "0.0"

/-! ### Ward coordinate transform (`gameToMapCoords`) -/

/-- `GAME_COORD_MIN` (`src/unnamed/part_003` line 5, and every other copy). -/
def GAME_COORD_MIN : ℚ := -8288

/-- `GAME_COORD_MAX` (`src/unnamed/part_003` line 6, and every other copy). -/
def GAME_COORD_MAX : ℚ := 8288

/-- `GAME_COORD_RANGE = GAME_COORD_MAX - GAME_COORD_MIN`. -/
def GAME_COORD_RANGE : ℚ := GAME_COORD_MAX - GAME_COORD_MIN

/-- `MAP_SIZE` of the `MiniMap` component (`src/unnamed/part_003` line 8). -/
def MAP_SIZE : ℚ := 320

/-- `gameToMapCoords` from the `MiniMap` component (`src/unnamed/part_003`
lines 21-29, identical in `frontend/src/components/MiniMap.tsx`): output in
pixels of a `MAP_SIZE`-sized square, with the vertical axis inverted. -/
def gameToMapCoordsMiniMap (x y : ℚ) : ℚ × ℚ :=
  let normalizedX := (x - GAME_COORD_MIN) / GAME_COORD_RANGE
  let normalizedY := (y - GAME_COORD_MIN) / GAME_COORD_RANGE
  (normalizedX * MAP_SIZE, (1 - normalizedY) * MAP_SIZE)

/-- `gameToMapCoords` from `MiniWardMap` in
`frontend/src/components/AnalysisDisplay.tsx` lines 207-215 (identical in
`src/unnamed/part_017`): output in percent of the container, with the same
vertical inversion. -/
def gameToMapCoordsMiniWardMap (x y : ℚ) : ℚ × ℚ :=
  let normalizedX := (x - GAME_COORD_MIN) / GAME_COORD_RANGE
  let normalizedY := (y - GAME_COORD_MIN) / GAME_COORD_RANGE
  (normalizedX * 100, (1 - normalizedY) * 100)

/-- The shared unit-square normalization both copies scale: x and y are
normalized over the symmetric range and the vertical coordinate is inverted
(`top = 1 - normalizedY`). -/
def gameToUnitSquare (x y : ℚ) : ℚ × ℚ :=
  ((x - GAME_COORD_MIN) / GAME_COORD_RANGE,
   1 - (y - GAME_COORD_MIN) / GAME_COORD_RANGE)

/-! ### HTTP client (`request` / `ApiError`, client chunk of
`src/unnamed/part_003` lines 166-202) and the two `getAnalysis` copies -/

/-- The `ApiError` thrown by `request`: it carries the HTTP status and a
message. -/
structure ApiError where
  status : ℕ
  message : String
  deriving DecidableEq, Repr

/-- Abstraction of a `fetch` response as `request` observes it: the HTTP
status, the optional `detail` field of the parsed error body (`none` when
the body fails to parse), the `statusText`, and the parsed success body. -/
structure HttpResponse (T : Type) where
  status : ℕ
  detail : Option String
  statusText : String
  body : T

/-- `response.ok` per the fetch contract: status in the 2xx range. -/
def responseOk (status : ℕ) : Bool :=
  decide (200 ≤ status ∧ status < 300)

/-- The error message computed by `request`:
`body.detail || response.statusText` (a missing or empty `detail` string is
falsy in JavaScript and falls back to the status text). -/
def apiErrorMessage (detail : Option String) (statusText : String) : String :=
  match detail with
  | none => statusText
  | some d => if d = "" then statusText else d

/-- `request` from the client chunk of `src/unnamed/part_003` lines 180-200:
returns the parsed body on a 2xx response and throws an `ApiError` carrying
the status otherwise. -/
def request {T : Type} (resp : HttpResponse T) : Except ApiError T :=
  if responseOk resp.status then Except.ok resp.body
  else Except.error ⟨resp.status, apiErrorMessage resp.detail resp.statusText⟩

/-- `getAnalysis` from `src/unnamed/part_005` lines 37-50: calls `request`
and catches the thrown error, returning `null` when the caught error has
`status === 404` and rethrowing otherwise. -/
def getAnalysisPart005 {T : Type} (resp : HttpResponse T) :
    Except ApiError (Option T) :=
  match request resp with
  | Except.ok v => Except.ok (some v)
  | Except.error e => if e.status = 404 then Except.ok none else Except.error e

/-- `getAnalysis` from `frontend/src/api/matches.ts` lines 37-41: forwards
`request<MatchAnalysisOut | null>` directly, with no handling of thrown
errors (the nullable body is the only source of `null`). -/
def getAnalysisMatchesTs {T : Type} (resp : HttpResponse (Option T)) :
    Except ApiError (Option T) :=
  request resp

/-! ### Team partition by player slot -/

/-- The fields of `MatchPlayerOut` (`types.ts`, `src/unnamed/part_018` lines
28-46) that the team partition and the item-purchase timelines read. -/
structure MatchPlayerOut where
  player_slot : ℕ
  steam_id : Option ℤ
  hero_id : ℕ
  deriving DecidableEq, Repr

/-- The Radiant filter of `PlayerTable`
(`frontend/src/components/PlayerTable.tsx` line 68, identical at
`frontend/src/api/matches.ts` line 501):
`players.filter((p) => p.player_slot < 128)`. -/
def radiantPlayers (players : List MatchPlayerOut) : List MatchPlayerOut :=
  players.filter (fun p => decide (p.player_slot < 128))

/-- The Dire filter of `PlayerTable`
(`frontend/src/components/PlayerTable.tsx` line 69, identical at
`frontend/src/api/matches.ts` line 502):
`players.filter((p) => p.player_slot >= 128)`. -/
def direPlayers (players : List MatchPlayerOut) : List MatchPlayerOut :=
  players.filter (fun p => decide (128 ≤ p.player_slot))

/-- The team filter of `filteredTimelines` (`src/unnamed/part_004` lines
348-351): `isRadiant = t.player.player_slot < 128`, kept for the `radiant`
filter and negated for the `dire` filter. -/
def timelineTeamFilter (filterTeam : String) (player_slot : ℕ) : Bool :=
  let isRadiant := decide (player_slot < 128)
  if filterTeam = "radiant" then isRadiant else !isRadiant

/-- The team derivation of `ObjectiveTimeline`
(`frontend/src/components/charts/ObjectiveTimeline.tsx` line 43): an event
is Dire when its payload says `dire` or its player slot is present and at
least 128, Radiant otherwise. -/
def objectiveEventTeam (dataTeam : Option String) (player_slot : Option ℕ) :
    String :=
  if (dataTeam == some "dire") ||
      (match player_slot with
       | some s => decide (128 ≤ s)
       | none => false) then "dire"
  else "radiant"

/-! ### Item purchase timelines (`ItemTimings`, `src/unnamed/part_004`) -/

/-- Character-level model of `itemName.replace(/^item_/, '')`: remove one
leading `item_` marker when present, leave the string alone otherwise. -/
def stripItemMarker : List Char → List Char
  | 'i' :: 't' :: 'e' :: 'm' :: '_' :: rest => rest
  | cs => cs

/-- The `normalizedName` of `playerTimelines` (`src/unnamed/part_004` line
327): `itemName.replace(/^item_/, '')`. -/
def normalizeItemName (s : String) : String :=
  ⟨stripItemMarker s.data⟩

/-- JavaScript `word.charAt(0).toUpperCase() + word.slice(1)` on a word. -/
def capFirst : List Char → List Char
  | [] => []
  | c :: cs => c.toUpper :: cs

/-- JavaScript `split('_')` on the character list of a string. -/
def splitUnderscore : List Char → List (List Char)
  | [] => [[]]
  | c :: cs =>
    if c = '_' then [] :: splitUnderscore cs
    else
      match splitUnderscore cs with
      | [] => [[c]]
      | w :: ws => (c :: w) :: ws

/-- `formatItemName` (`src/unnamed/part_004` lines 37-43): strip one leading
`item_` marker, split on underscores, capitalize each word, join with
spaces. -/
def formatItemName (s : String) : String :=
  ⟨List.intercalate [' '] ((splitUnderscore (stripItemMarker s.data)).map capFirst)⟩

/-- The `skipItems` list of `playerTimelines` (`src/unnamed/part_004` line
325). -/
def skipItems : List String :=
  ["tango", "clarity", "flask", "ward_observer", "ward_sentry", "dust",
   "smoke_of_deceit", "tpscroll", "branches", "faerie_fire",
   "enchanted_mango", "blood_grenade", "tome_of_knowledge"]

/-- The fields of `EventOut` (`types.ts`, `src/unnamed/part_018` lines
61-67) the purchase pipeline reads; `dataItem` is the `item` field of the
event's free-form payload (`event.data?.item`). -/
structure EventOut where
  tick : ℕ
  game_time_secs : ℚ
  event_type : String
  player_slot : Option ℕ
  dataItem : Option String

/-- `ItemPurchaseDisplay` (`src/unnamed/part_004` lines 13-19). -/
structure ItemPurchaseDisplay where
  item : String
  displayName : String
  time : ℚ
  benchmark : Option ℚ
  isKey : Bool
  deriving DecidableEq

/-- The purchase record pushed by `playerTimelines` for one event: built
from the normalized name, the display name, the event time, and the
benchmark/key lookups (the latter two live in `../data/items`, outside the
pipeline, so they are abstract parameters here). -/
def mkPurchase (benchmarkOf : String → Option ℚ) (isKeyOf : String → Bool)
    (e : EventOut) (raw : String) : ItemPurchaseDisplay :=
  let normalizedName := normalizeItemName raw
  ⟨normalizedName, formatItemName normalizedName, e.game_time_secs,
   benchmarkOf normalizedName, isKeyOf normalizedName⟩

/-- One iteration of the `for (const event of purchaseEvents)` loop of
`playerTimelines` (`src/unnamed/part_004` lines 308-329): skip events with
no slot, no (or falsy empty) item name, a skip-listed normalized name, or a
normalized name the player already bought; otherwise push the purchase onto
the player's list. -/
def purchaseStep (benchmarkOf : String → Option ℚ) (isKeyOf : String → Bool)
    (acc : ℕ → List ItemPurchaseDisplay) (e : EventOut) :
    ℕ → List ItemPurchaseDisplay :=
  match e.player_slot with
  | none => acc
  | some slot =>
    match e.dataItem with
    | none => acc
    | some itemName =>
      if itemName = "" then acc
      else
        if normalizeItemName itemName ∈ skipItems then acc
        else if (acc slot).any (fun p => p.item == normalizeItemName itemName) then
          acc
        else fun s =>
          if s = slot then acc slot ++ [mkPurchase benchmarkOf isKeyOf e itemName]
          else acc s

/-- The `playerPurchases` accumulation of `playerTimelines`
(`src/unnamed/part_004` lines 305-330): filter to `item_purchase` events
and run the loop, starting from empty per-slot lists. -/
def playerPurchases (benchmarkOf : String → Option ℚ)
    (isKeyOf : String → Bool) (events : List EventOut) :
    ℕ → List ItemPurchaseDisplay :=
  (events.filter (fun e => e.event_type == "item_purchase")).foldl
    (purchaseStep benchmarkOf isKeyOf) (fun _ => [])

/-- Stable comparator-driven insertion, the shallow model of
`Array.prototype.sort` with a user comparator (`le x y` stands for
"the comparator on (x, y) is ≤ 0"). -/
def insertBy {α : Type} (le : α → α → Bool) (x : α) : List α → List α
  | [] => [x]
  | y :: ys => if le x y then x :: y :: ys else y :: insertBy le x ys

/-- Comparator-driven sort (insertion sort). -/
def sortBy {α : Type} (le : α → α → Bool) : List α → List α
  | [] => []
  | x :: xs => insertBy le x (sortBy le xs)

/-- The comparator `(a, b) => a.time - b.time` of `src/unnamed/part_004`
line 334, read as "keep `a` before `b` when the difference is ≤ 0". -/
def purchaseTimeLe (a b : ItemPurchaseDisplay) : Bool :=
  decide (a.time - b.time ≤ 0)

/-- The per-player timeline of `playerTimelines` (`src/unnamed/part_004`
lines 332-336): the accumulated purchases of the player's slot (empty when
the slot never appears), sorted ascending by time. -/
def timelineForPlayer (benchmarkOf : String → Option ℚ)
    (isKeyOf : String → Bool) (events : List EventOut)
    (player : MatchPlayerOut) : List ItemPurchaseDisplay :=
  sortBy purchaseTimeLe
    (playerPurchases benchmarkOf isKeyOf events player.player_slot)

/-! ### Table sorting (`frontend/src/hooks/useTableSort.ts`) -/

/-- `SortOrder` of `useTableSort.ts` line 3. -/
inductive SortOrder
  | asc
  | desc
  deriving DecidableEq, Repr

/-- `SortConfig` of `useTableSort.ts` lines 15-18: a key and a per-row value
extractor; the JavaScript `null`/`undefined` values are `none`. -/
structure SortConfig (T V : Type) where
  key : String
  getValue : T → Option V

/-- The comparator body of `useTableSort.ts` lines 42-50, as the integer the
`.sort` callback returns: a null/undefined left value sorts after anything
(return 1), a null/undefined right value sorts before (return -1), and only
the comparison of two present values is negated for descending order. -/
def rowCompare {V : Type} [LinearOrder V] (sortOrder : SortOrder)
    (aVal bVal : Option V) : ℤ :=
  match aVal, bVal with
  | none, _ => 1
  | some _, none => -1
  | some a, some b =>
    let comparison : ℤ := if a < b then -1 else if a > b then 1 else 0
    match sortOrder with
    | SortOrder.asc => comparison
    | SortOrder.desc => -comparison

/-- `sortedData` of `useTableSort.ts` lines 37-53: the input data when the
sort key is falsy (`if (!sortKey) return data` — `null` and the empty
string are both falsy in JavaScript) or matches no config, otherwise a
comparator sort of a copy of the data. -/
def sortedData {T V : Type} [LinearOrder V] (data : List T)
    (sortConfigs : List (SortConfig T V)) (sortKey : Option String)
    (sortOrder : SortOrder) : List T :=
  match sortKey with
  | none => data
  | some key =>
    if key = "" then data
    else
      match sortConfigs.find? (fun c => c.key == key) with
      | none => data
      | some config =>
        sortBy (fun a b =>
          decide (rowCompare sortOrder (config.getValue a) (config.getValue b) ≤ 0))
          data

/-! ### Analysis polling (`MatchDetailPage`, `src/unnamed/part_003` lines
280-303) -/

/-- Outcome of one `getAnalysis` call inside the polling loop: it resolves
with a result, resolves with `null`, or rejects. -/
inductive PollOutcome
  | found
  | notYet
  | errored
  deriving DecidableEq, Repr

/-- Result of the polling loop: completion at some attempt, or the timeout
error thrown once attempts exceed 30. -/
inductive PollResult
  | completed (attempt : ℕ)
  | timedOut
  deriving DecidableEq, Repr

/-- The delay awaited by `await new Promise(resolve => setTimeout(resolve,
2000))` before each `getAnalysis` call. -/
def POLL_DELAY_MS : ℕ := 2000

/-- `pollForAnalysis` from `MatchDetailPage` (`src/unnamed/part_003` lines
280-303), with the async environment abstracted as the per-attempt sequence
of `getAnalysis` outcomes: attempts above 30 throw the timeout error; each
iteration awaits the 2000 ms delay, queries, stops on a result, and recurs
with `attempts + 1` on `null` or on a rejection.  The second component is
the trace of iterations: the awaited delay in milliseconds paired with the
attempt number of the `getAnalysis` call it precedes. -/
def pollForAnalysis (responses : ℕ → PollOutcome) (attempts : ℕ) :
    PollResult × List (ℕ × ℕ) :=
  if h : 30 < attempts then (PollResult.timedOut, [])
  else
    match responses attempts with
    | PollOutcome.found =>
      (PollResult.completed attempts, [(POLL_DELAY_MS, attempts)])
    | PollOutcome.notYet =>
      let r := pollForAnalysis responses (attempts + 1)
      (r.1, (POLL_DELAY_MS, attempts) :: r.2)
    | PollOutcome.errored =>
      let r := pollForAnalysis responses (attempts + 1)
      (r.1, (POLL_DELAY_MS, attempts) :: r.2)
termination_by 31 - attempts
decreasing_by all_goals omega

end Lab3

namespace Lab3

/-! ### Claim theorems for the definitions above -/

/-- Claim C1: grade banding is a pure function of the score with fixed
non-overlapping thresholds: `S` iff score ≥ 90, `A` iff 80 ≤ score < 90,
`B` iff 70 ≤ score < 80, `C` iff 60 ≤ score < 70, `D` iff 50 ≤ score < 60,
`F` iff score < 50; `scoreGrade 89.9 = "A"` and `scoreGrade 90 = "S"`; and
the three textual copies of the banding function (in `AnalysisDisplay.tsx`,
`HeroPerformanceTable.tsx` and `part_017`) agree on every input. -/
theorem claim_C1_grade_banding (score : ℚ) :
    scoreGradeAnalysisDisplay score = scoreGradeHeroPerformanceTable score ∧
    scoreGradeAnalysisDisplay score = scoreGradePart017 score ∧
    (scoreGradeAnalysisDisplay score = "S" ↔ 90 ≤ score) ∧
    (scoreGradeAnalysisDisplay score = "A" ↔ 80 ≤ score ∧ score < 90) ∧
    (scoreGradeAnalysisDisplay score = "B" ↔ 70 ≤ score ∧ score < 80) ∧
    (scoreGradeAnalysisDisplay score = "C" ↔ 60 ≤ score ∧ score < 70) ∧
    (scoreGradeAnalysisDisplay score = "D" ↔ 50 ≤ score ∧ score < 60) ∧
    (scoreGradeAnalysisDisplay score = "F" ↔ score < 50) ∧
    scoreGradeAnalysisDisplay (899/10) = "A" ∧
    scoreGradeAnalysisDisplay 90 = "S" := by
  refine ⟨rfl, rfl, ?_, ?_, ?_, ?_, ?_, ?_, by norm_num [scoreGradeAnalysisDisplay],
    by norm_num [scoreGradeAnalysisDisplay]⟩ <;>
  · unfold scoreGradeAnalysisDisplay
    split_ifs <;> simp_all <;> intros <;> linarith

/-- Claim C7: `canFetchReplay` is true exactly when the replay state is none
of the two in-flight states (`parsing`, `downloading`) and none of the three
terminal states (`parsed`, `unavailable`, `expired`), so the Fetch Replay
action is never offered for a terminal or mid-flight replay acquisition. -/
theorem claim_C7_can_fetch_replay (replay_state : String) :
    canFetchReplay replay_state = true ↔
      replay_state ≠ "parsed" ∧ replay_state ≠ "parsing" ∧
      replay_state ≠ "downloading" ∧ replay_state ≠ "unavailable" ∧
      replay_state ≠ "expired" := by
  simp [canFetchReplay, and_assoc]

/-- Claim C3: the win-rate computation divides only behind the
`matches_played > 0` guard: with zero matches played the displayed win rate
is the literal string `"0.0"` for every win count, and with `n + 1` matches
played it is the percentage `wins / (n+1) * 100` rendered by `toFixed(1)`;
the function is total, so no input raises an exception. -/
theorem claim_C3_win_rate_safety (wins n : ℕ) :
    winRateDisplay wins 0 = "0.0" ∧
    winRateDisplay wins (n + 1) =
      jsToFixed1 (((wins : ℚ) / ((n : ℚ) + 1)) * 100) ∧
    winRateDisplay 3 8 = "37.5" := by
  refine ⟨rfl, ?_, ?_⟩
  · simp [winRateDisplay]
  · rw [winRateDisplay, jsToFixed1]
    norm_num
    decide

/-- Claim C4: both copies of the ward coordinate transform are scalings of
the same unit-square normalization with the vertical inversion
`top = 1 - normalizedY`; that normalization maps the game-coordinate
midpoint `(0,0)` to the centre `(0.5, 0.5)` of the unit square and the
minimum corner `(-8288, -8288)` to `(0, 1)`. -/
theorem claim_C4_coordinate_transform (x y : ℚ) :
    gameToMapCoordsMiniMap x y =
      (MAP_SIZE * (gameToUnitSquare x y).1, MAP_SIZE * (gameToUnitSquare x y).2) ∧
    gameToMapCoordsMiniWardMap x y =
      (100 * (gameToUnitSquare x y).1, 100 * (gameToUnitSquare x y).2) ∧
    gameToUnitSquare 0 0 = (1/2, 1/2) ∧
    gameToUnitSquare (-8288) (-8288) = (0, 1) := by
  refine ⟨?_, ?_, ?_, ?_⟩
  · simp only [gameToMapCoordsMiniMap, gameToUnitSquare, Prod.mk.injEq]
    constructor <;> ring
  · simp only [gameToMapCoordsMiniWardMap, gameToUnitSquare, Prod.mk.injEq]
    constructor <;> ring
  · simp only [gameToUnitSquare, GAME_COORD_MIN, GAME_COORD_MAX, GAME_COORD_RANGE,
      Prod.mk.injEq]
    norm_num
  · simp only [gameToUnitSquare, GAME_COORD_MIN, GAME_COORD_MAX, GAME_COORD_RANGE,
      Prod.mk.injEq]
    norm_num

theorem length_filter_add_length_filter_not {α : Type} (p : α → Bool)
    (l : List α) :
    (l.filter p).length + (l.filter (fun a => !(p a))).length = l.length := by
  induction l with
  | nil => rfl
  | cons a l ih =>
    by_cases h : p a = true <;>
      simp [List.filter_cons, h, Bool.not_eq_true] at * <;> omega

theorem decide_ge_eq_not_decide_lt (s : ℕ) :
    decide (128 ≤ s) = !decide (s < 128) := by
  by_cases h : s < 128 <;> simp [h] <;> omega

/-- Claim C6: the Radiant and Dire filters of the player table both test the
slot against 128 (`< 128` Radiant, `>= 128` Dire), so the two groups are
disjoint and jointly cover the player list (their sizes add up to it); the
timeline team filter of `part_004` and the slot fallback of
`ObjectiveTimeline` use the same threshold. -/
theorem claim_C6_team_partition (players : List MatchPlayerOut)
    (p : MatchPlayerOut) (slot : ℕ) :
    (p ∈ radiantPlayers players ↔ p ∈ players ∧ p.player_slot < 128) ∧
    (p ∈ direPlayers players ↔ p ∈ players ∧ 128 ≤ p.player_slot) ∧
    ¬ (p ∈ radiantPlayers players ∧ p ∈ direPlayers players) ∧
    (p ∈ players → p ∈ radiantPlayers players ∨ p ∈ direPlayers players) ∧
    (radiantPlayers players).length + (direPlayers players).length =
      players.length ∧
    timelineTeamFilter "radiant" slot = decide (slot < 128) ∧
    timelineTeamFilter "dire" slot = decide (128 ≤ slot) ∧
    objectiveEventTeam none (some slot) =
      (if slot < 128 then "radiant" else "dire") := by
  refine ⟨?_, ?_, ?_, ?_, ?_, ?_, ?_, ?_⟩
  · simp [radiantPlayers, List.mem_filter]
  · simp [direPlayers, List.mem_filter]
  · rintro ⟨h1, h2⟩
    rw [radiantPlayers, List.mem_filter] at h1
    rw [direPlayers, List.mem_filter] at h2
    simp at h1 h2
    omega
  · intro hp
    by_cases h : p.player_slot < 128
    · exact Or.inl (by simp [radiantPlayers, List.mem_filter, hp, h])
    · exact Or.inr (by simp [direPlayers, List.mem_filter, hp]; omega)
  · have hfun : (fun q : MatchPlayerOut => decide (128 ≤ q.player_slot)) =
        (fun q : MatchPlayerOut => !(decide (q.player_slot < 128))) := by
      funext q
      exact decide_ge_eq_not_decide_lt q.player_slot
    rw [radiantPlayers, direPlayers, hfun]
    exact length_filter_add_length_filter_not _ players
  · simp [timelineTeamFilter]
  · by_cases h : slot < 128 <;> simp [timelineTeamFilter, h] <;> omega
  · by_cases h : slot < 128 <;> simp [objectiveEventTeam, h] <;> omega

/-- Claim C6, witness: the partition theorem applied to a concrete
two-player list with one player on each side of the threshold. -/
theorem claim_C6_team_partition_witness :
    (MatchPlayerOut.mk 0 none 1) ∈
      [MatchPlayerOut.mk 0 none 1, MatchPlayerOut.mk 130 none 2] ∧
    ((MatchPlayerOut.mk 0 none 1) ∈
        radiantPlayers
          [MatchPlayerOut.mk 0 none 1, MatchPlayerOut.mk 130 none 2] ∨
      (MatchPlayerOut.mk 0 none 1) ∈
        direPlayers
          [MatchPlayerOut.mk 0 none 1, MatchPlayerOut.mk 130 none 2]) := by
  refine ⟨by decide, ?_⟩
  exact (claim_C6_team_partition
    [MatchPlayerOut.mk 0 none 1, MatchPlayerOut.mk 130 none 2]
    (MatchPlayerOut.mk 0 none 1) 0).2.2.2.1 (by decide)

theorem mem_insertBy {α : Type} (le : α → α → Bool) (x a : α)
    (l : List α) : a ∈ insertBy le x l ↔ a = x ∨ a ∈ l := by
  induction l with
  | nil => simp [insertBy]
  | cons y ys ih =>
    by_cases h : le x y <;> simp [insertBy, h, ih] <;> tauto

theorem insertBy_pairwise {α : Type} (le : α → α → Bool)
    (htot : ∀ a b, le a b = false → le b a = true)
    (htrans : ∀ a b c, le a b = true → le b c = true → le a c = true)
    (x : α) (l : List α) (hl : l.Pairwise (fun a b => le a b = true)) :
    (insertBy le x l).Pairwise (fun a b => le a b = true) := by
  induction l with
  | nil => simp [insertBy]
  | cons y ys ih =>
    rcases List.pairwise_cons.mp hl with ⟨hy, hys⟩
    by_cases h : le x y = true
    · rw [insertBy, if_pos h]
      refine List.pairwise_cons.mpr ⟨fun z hz => ?_, hl⟩
      rcases List.mem_cons.mp hz with rfl | hz
      · exact h
      · exact htrans x y z h (hy z hz)
    · rw [insertBy, if_neg h]
      refine List.pairwise_cons.mpr ⟨fun z hz => ?_, ih hys⟩
      rcases (mem_insertBy le x z ys).mp hz with hzx | hz
      · subst hzx
        exact htot z y (Bool.eq_false_iff.mpr h)
      · exact hy z hz

theorem sortBy_pairwise {α : Type} (le : α → α → Bool)
    (htot : ∀ a b, le a b = false → le b a = true)
    (htrans : ∀ a b c, le a b = true → le b c = true → le a c = true)
    (l : List α) : (sortBy le l).Pairwise (fun a b => le a b = true) := by
  induction l with
  | nil => simp [sortBy]
  | cons x xs ih => exact insertBy_pairwise le htot htrans x _ ih

theorem stripItemMarker_eq_self (cs : List Char)
    (h : ∀ t, cs ≠ 'i' :: 't' :: 'e' :: 'm' :: '_' :: t) :
    stripItemMarker cs = cs := by
  unfold stripItemMarker
  split
  · exact absurd rfl (h _)
  · rfl

theorem purchaseStep_mem (benchmarkOf : String → Option ℚ)
    (isKeyOf : String → Bool) (acc : ℕ → List ItemPurchaseDisplay)
    (e : EventOut) (slot : ℕ) (p : ItemPurchaseDisplay)
    (hp : p ∈ purchaseStep benchmarkOf isKeyOf acc e slot) :
    p ∈ acc slot ∨
      (e.player_slot = some slot ∧ ∃ raw, e.dataItem = some raw ∧
        p = mkPurchase benchmarkOf isKeyOf e raw) := by
  unfold purchaseStep at hp
  rcases hes : e.player_slot with _ | s <;> rw [hes] at hp <;> dsimp only at hp
  · exact Or.inl hp
  rcases hdi : e.dataItem with _ | raw <;> rw [hdi] at hp <;> dsimp only at hp
  · exact Or.inl hp
  by_cases hemp : raw = ""
  · rw [if_pos hemp] at hp; exact Or.inl hp
  rw [if_neg hemp] at hp
  by_cases hskip : normalizeItemName raw ∈ skipItems
  · rw [if_pos hskip] at hp; exact Or.inl hp
  rw [if_neg hskip] at hp
  by_cases hdup :
      (acc s).any (fun q => q.item == normalizeItemName raw) = true
  · rw [if_pos hdup] at hp; exact Or.inl hp
  rw [if_neg hdup] at hp
  by_cases hs : slot = s
  · subst hs
    rw [if_pos rfl] at hp
    rcases List.mem_append.mp hp with h | h
    · exact Or.inl h
    · exact Or.inr ⟨rfl, raw, rfl, by simpa using h⟩
  · rw [if_neg hs] at hp; exact Or.inl hp

theorem foldl_purchases_mem (benchmarkOf : String → Option ℚ)
    (isKeyOf : String → Bool) (evs : List EventOut) :
    ∀ (acc : ℕ → List ItemPurchaseDisplay) (slot : ℕ)
      (p : ItemPurchaseDisplay),
      p ∈ (evs.foldl (purchaseStep benchmarkOf isKeyOf) acc) slot →
      p ∈ acc slot ∨ ∃ e ∈ evs, e.player_slot = some slot ∧
        ∃ raw, e.dataItem = some raw ∧
          p = mkPurchase benchmarkOf isKeyOf e raw := by
  induction evs with
  | nil => exact fun acc slot p hp => Or.inl hp
  | cons e evs ih =>
    intro acc slot p hp
    rcases ih (purchaseStep benchmarkOf isKeyOf acc e) slot p hp with
      h | ⟨e', he', hrest⟩
    · rcases purchaseStep_mem benchmarkOf isKeyOf acc e slot p h with h' | h'
      · exact Or.inl h'
      · exact Or.inr ⟨e, List.mem_cons_self e evs, h'.1, h'.2⟩
    · exact Or.inr ⟨e', List.mem_cons_of_mem e he', hrest⟩

/-- Claim C5: the display normalization strips exactly one leading `item_`
marker (a marker that is the whole head is removed even when another
follows it; a string that does not begin with the marker, including one
with `item_` strictly inside, is untouched); `formatItemName` title-cases
the once-stripped name; and every purchase record in the per-player
accumulation carries the once-stripped name and display derived from the
raw `item` identifier of an `item_purchase` event that is still present,
unmutated, in the input list. -/
theorem claim_C5_item_normalization (s t : String)
    (benchmarkOf : String → Option ℚ) (isKeyOf : String → Bool)
    (events : List EventOut) (slot : ℕ) (p : ItemPurchaseDisplay) :
    normalizeItemName ("item_" ++ t) = t ∧
    ((∀ u : List Char, s.data ≠ 'i' :: 't' :: 'e' :: 'm' :: '_' :: u) →
      normalizeItemName s = s) ∧
    formatItemName s =
      String.mk (List.intercalate [' ']
        ((splitUnderscore (normalizeItemName s).data).map capFirst)) ∧
    formatItemName "item_item_branch" = "Item Branch" ∧
    formatItemName "item_power_treads" = "Power Treads" ∧
    (p ∈ playerPurchases benchmarkOf isKeyOf events slot →
      ∃ e ∈ events, e.event_type = "item_purchase" ∧
        e.player_slot = some slot ∧ ∃ raw, e.dataItem = some raw ∧
          p.item = normalizeItemName raw ∧
          p.displayName = formatItemName (normalizeItemName raw) ∧
          p.time = e.game_time_secs) := by
  refine ⟨?_, ?_, rfl, by decide, by decide, ?_⟩
  · cases t with
    | mk data => rfl
  · intro h
    cases s with
    | mk data =>
      show String.mk (stripItemMarker data) = String.mk data
      rw [stripItemMarker_eq_self data (fun u => by simpa using h u)]
  · intro hp
    rcases foldl_purchases_mem benchmarkOf isKeyOf _ _ slot p hp with
      h | ⟨e, he, hslot, raw, hraw, hpe⟩
    · exact absurd h (List.not_mem_nil p)
    · rcases List.mem_filter.mp he with ⟨hee, het⟩
      refine ⟨e, hee, by simpa using het, hslot, raw, hraw, ?_, ?_, ?_⟩ <;>
        rw [hpe] <;> rfl

/-- Claim C5, witness: the normalization theorem applied to a one-event
list holding a raw `item_blink` purchase. -/
theorem claim_C5_item_normalization_witness :
    (ItemPurchaseDisplay.mk "blink" "Blink" 300 none false ∈
      playerPurchases (fun _ => none) (fun _ => false)
        [EventOut.mk 1 300 "item_purchase" (some 0) (some "item_blink")] 0) ∧
    ∃ e ∈ [EventOut.mk 1 300 "item_purchase" (some 0) (some "item_blink")],
      e.event_type = "item_purchase" ∧ e.player_slot = some 0 ∧
      ∃ raw, e.dataItem = some raw ∧
        (ItemPurchaseDisplay.mk "blink" "Blink" 300 none false).item =
          normalizeItemName raw ∧
        (ItemPurchaseDisplay.mk "blink" "Blink" 300 none false).displayName =
          formatItemName (normalizeItemName raw) ∧
        (ItemPurchaseDisplay.mk "blink" "Blink" 300 none false).time =
          e.game_time_secs := by
  refine ⟨by decide, ?_⟩
  exact (claim_C5_item_normalization "x" "x" (fun _ => none) (fun _ => false)
    [EventOut.mk 1 300 "item_purchase" (some 0) (some "item_blink")] 0
    (ItemPurchaseDisplay.mk "blink" "Blink" 300 none false)).2.2.2.2.2
    (by decide)

/-- Claim C8: every per-player purchase timeline built by `playerTimelines`
is sorted ascending by time: whenever one purchase precedes another in the
timeline, its time is at most the other's. -/
theorem claim_C8_timeline_sorted (benchmarkOf : String → Option ℚ)
    (isKeyOf : String → Bool) (events : List EventOut)
    (player : MatchPlayerOut) :
    (timelineForPlayer benchmarkOf isKeyOf events player).Pairwise
      (fun p1 p2 => p1.time ≤ p2.time) := by
  have htot : ∀ a b, purchaseTimeLe a b = false → purchaseTimeLe b a = true := by
    intro a b h
    simp only [purchaseTimeLe, decide_eq_false_iff_not, not_le] at h
    simp only [purchaseTimeLe, decide_eq_true_eq]
    linarith
  have htrans : ∀ a b c, purchaseTimeLe a b = true → purchaseTimeLe b c = true →
      purchaseTimeLe a c = true := by
    intro a b c h1 h2
    simp only [purchaseTimeLe, decide_eq_true_eq] at h1 h2 ⊢
    linarith
  have h := sortBy_pairwise purchaseTimeLe htot htrans
    (playerPurchases benchmarkOf isKeyOf events player.player_slot)
  refine h.imp ?_
  intro a b hab
  simp only [purchaseTimeLe, decide_eq_true_eq] at hab
  linarith

/-- Claim C2, counterexample: the repository holds two copies of
`getAnalysis`, and the copy at `frontend/src/api/matches.ts` lines 37-41
does not special-case 404: on a 404 response it propagates the thrown
`ApiError` (status 404) instead of returning `null`, so the claim as stated
over every `getAnalysis` fails at this concrete 404 response. -/
theorem claim_C2_counterexample :
    (HttpResponse.mk 404 (some "Analysis not found") "Not Found"
        (none : Option ℚ)).status = 404 ∧
    getAnalysisMatchesTs
        (HttpResponse.mk 404 (some "Analysis not found") "Not Found"
          (none : Option ℚ)) =
      Except.error ⟨404, "Analysis not found"⟩ ∧
    getAnalysisMatchesTs
        (HttpResponse.mk 404 (some "Analysis not found") "Not Found"
          (none : Option ℚ)) ≠
      Except.ok none := by
  refine ⟨rfl, rfl, ?_⟩
  simp [getAnalysisMatchesTs, request, responseOk]

/-- Claim C2, amended: the `getAnalysis` of `src/unnamed/part_005` treats a
404 response as "analysis not found" and returns `null`, throws the
`ApiError` carrying the status for every other non-2xx status, and wraps a
2xx body in `some`; the `getAnalysis` copy of
`frontend/src/api/matches.ts` lines 37-41, by contrast, propagates every
non-2xx status (404 included) as an `ApiError` carrying that status. -/
theorem claim_C2_get_analysis_404 {T : Type} (status : ℕ)
    (detail : Option String) (statusText : String) (body : T)
    (obody : Option T) :
    getAnalysisPart005 (HttpResponse.mk 404 detail statusText body) =
      Except.ok none ∧
    (¬ (200 ≤ status ∧ status < 300) → status ≠ 404 →
      getAnalysisPart005 (HttpResponse.mk status detail statusText body) =
        Except.error ⟨status, apiErrorMessage detail statusText⟩) ∧
    (200 ≤ status ∧ status < 300 →
      getAnalysisPart005 (HttpResponse.mk status detail statusText body) =
        Except.ok (some body)) ∧
    (¬ (200 ≤ status ∧ status < 300) →
      getAnalysisMatchesTs (HttpResponse.mk status detail statusText obody) =
        Except.error ⟨status, apiErrorMessage detail statusText⟩) := by
  refine ⟨?_, ?_, ?_, ?_⟩
  · simp [getAnalysisPart005, request, responseOk]
  · intro h h404
    simp [getAnalysisPart005, request, responseOk, h, h404]
  · intro h
    simp [getAnalysisPart005, request, responseOk, h]
  · intro h
    simp [getAnalysisMatchesTs, request, responseOk, h]

/-- Claim C2, witness: the amended theorem applied at status 500 with a
concrete response. -/
theorem claim_C2_get_analysis_404_witness :
    (¬ (200 ≤ 500 ∧ 500 < 300)) ∧ (500 : ℕ) ≠ 404 ∧
    getAnalysisPart005 (HttpResponse.mk 500 (some "boom") "Server Error"
        (0 : ℚ)) = Except.error ⟨500, "boom"⟩ ∧
    getAnalysisMatchesTs (HttpResponse.mk 500 (some "boom") "Server Error"
        (none : Option ℚ)) = Except.error ⟨500, "boom"⟩ := by
  refine ⟨by decide, by decide, ?_, ?_⟩
  · exact (claim_C2_get_analysis_404 500 (some "boom") "Server Error" (0 : ℚ)
      (none : Option ℚ)).2.1 (by decide) (by decide)
  · exact (claim_C2_get_analysis_404 500 (some "boom") "Server Error" (0 : ℚ)
      (none : Option ℚ)).2.2.2 (by decide)

theorem insertBy_pairwise_badLast {α : Type} (le : α → α → Bool)
    (bad : α → Prop)
    (hsink : ∀ x y, bad x → le x y = false)
    (hpass : ∀ x y, ¬ bad x → bad y → le x y = true)
    (x : α) (l : List α)
    (hl : l.Pairwise (fun a b => bad a → bad b)) :
    (insertBy le x l).Pairwise (fun a b => bad a → bad b) := by
  induction l with
  | nil => simp [insertBy]
  | cons y ys ih =>
    rcases List.pairwise_cons.mp hl with ⟨hy, hys⟩
    by_cases h : le x y = true
    · rw [insertBy, if_pos h]
      refine List.pairwise_cons.mpr ⟨fun z hz hbx => ?_, hl⟩
      rw [hsink x y hbx] at h
      cases h
    · rw [insertBy, if_neg h]
      refine List.pairwise_cons.mpr ⟨fun z hz hby => ?_, ih hys⟩
      rcases (mem_insertBy le x z ys).mp hz with hzx | hz
      · subst hzx
        by_contra hbz
        exact h (hpass z y hbz hby)
      · exact hy z hz hby

theorem sortBy_pairwise_badLast {α : Type} (le : α → α → Bool)
    (bad : α → Prop)
    (hsink : ∀ x y, bad x → le x y = false)
    (hpass : ∀ x y, ¬ bad x → bad y → le x y = true)
    (l : List α) :
    (sortBy le l).Pairwise (fun a b => bad a → bad b) := by
  induction l with
  | nil => simp [sortBy]
  | cons x xs ih => exact insertBy_pairwise_badLast le bad hsink hpass x _ ih

/-- Claim C9, counterexample: the guard `if (!sortKey) return data` treats
the empty-string key as falsy, so with `sortKey = ""` and a config keyed
`""` the hook returns the input array unchanged and unsorted — here a
null-valued row sits before a present-valued row in the output, so rows
with null sort values are not always placed after rows with present
values. -/
theorem claim_C9_counterexample :
    (List.find? (fun c => c.key == "")
        [SortConfig.mk "" (fun t : Option ℤ => t)] =
      some (SortConfig.mk "" (fun t : Option ℤ => t))) ∧
    sortedData [none, some (3 : ℤ)]
        [SortConfig.mk "" (fun t : Option ℤ => t)] (some "")
        SortOrder.asc = [none, some 3] ∧
    ¬ (sortedData [none, some (3 : ℤ)]
        [SortConfig.mk "" (fun t : Option ℤ => t)] (some "")
        SortOrder.asc).Pairwise
      (fun a b => a = none → b = none) := by
  refine ⟨rfl, rfl, ?_⟩
  intro h
  rcases List.pairwise_cons.mp h with ⟨h1, _⟩
  exact absurd (h1 (some 3) (by simp) rfl) (by simp)

/-- Claim C9, amended: `useTableSort` returns the data unchanged when the
sort key is falsy (absent or the empty string, even when a config matches
the empty key) or matches no config; the comparator's null handling is
independent of the sort order (the asc/desc negation touches only
comparisons of two present values); and whenever the sort key is a
non-empty string matching a config, a row whose sort value is
null/undefined never precedes a row with a present value in the sorted
result. -/
theorem claim_C9_nulls_sort_last {T V : Type} [LinearOrder V] (data : List T)
    (sortConfigs : List (SortConfig T V)) (key : String)
    (sortOrder other : SortOrder) (config : SortConfig T V)
    (aVal bVal : Option V) :
    sortedData data sortConfigs none sortOrder = data ∧
    sortedData data sortConfigs (some "") sortOrder = data ∧
    (sortConfigs.find? (fun c => c.key == key) = none →
      sortedData data sortConfigs (some key) sortOrder = data) ∧
    ((aVal = none ∨ bVal = none) →
      rowCompare sortOrder aVal bVal = rowCompare other aVal bVal) ∧
    (key ≠ "" → sortConfigs.find? (fun c => c.key == key) = some config →
      (sortedData data sortConfigs (some key) sortOrder).Pairwise
        (fun a b => config.getValue a = none → config.getValue b = none)) := by
  refine ⟨rfl, rfl, ?_, ?_, ?_⟩
  · intro h
    by_cases hk : key = ""
    · subst hk
      rfl
    · simp only [sortedData, if_neg hk, h]
  · rintro (rfl | rfl)
    · rfl
    · rcases aVal with _ | a <;> rfl
  · intro hk h
    simp only [sortedData, if_neg hk, h]
    refine sortBy_pairwise_badLast _ (fun t => config.getValue t = none)
      ?_ ?_ data
    · intro x y hbx
      simp [rowCompare, hbx]
    · intro x y hbx hby
      rcases hva : config.getValue x with _ | a
      · exact absurd hva hbx
      · simp [rowCompare, hva, hby]

/-- Claim C9, witness: the nulls-last conclusion applied to a concrete
three-row table, keyed by the non-empty key `v`, whose rows are their own
optional sort values. -/
theorem claim_C9_nulls_sort_last_witness :
    ("v" ≠ "") ∧
    (List.find? (fun c => c.key == "v")
        [SortConfig.mk "v" (fun t : Option ℤ => t)] =
      some (SortConfig.mk "v" (fun t : Option ℤ => t))) ∧
    (sortedData [some (5 : ℤ), none, some 3]
        [SortConfig.mk "v" (fun t : Option ℤ => t)] (some "v")
        SortOrder.desc).Pairwise
      (fun a b => a = none → b = none) := by
  refine ⟨by decide, rfl, ?_⟩
  exact (claim_C9_nulls_sort_last [some (5 : ℤ), none, some 3]
    [SortConfig.mk "v" (fun t : Option ℤ => t)] "v" SortOrder.desc
    SortOrder.asc (SortConfig.mk "v" (fun t : Option ℤ => t))
    none none).2.2.2.2 (by decide) rfl

theorem pollForAnalysis_timeout (responses : ℕ → PollOutcome)
    (attempts : ℕ) (h : 30 < attempts) :
    pollForAnalysis responses attempts = (PollResult.timedOut, []) := by
  rw [pollForAnalysis]
  exact dif_pos h

theorem pollForAnalysis_found (responses : ℕ → PollOutcome)
    (attempts : ℕ) (h : attempts ≤ 30)
    (hr : responses attempts = PollOutcome.found) :
    pollForAnalysis responses attempts =
      (PollResult.completed attempts, [(POLL_DELAY_MS, attempts)]) := by
  rw [pollForAnalysis, dif_neg (by omega : ¬ 30 < attempts), hr]

theorem pollForAnalysis_continue (responses : ℕ → PollOutcome)
    (attempts : ℕ) (h : attempts ≤ 30)
    (hr : responses attempts ≠ PollOutcome.found) :
    pollForAnalysis responses attempts =
      ((pollForAnalysis responses (attempts + 1)).1,
        (POLL_DELAY_MS, attempts) ::
          (pollForAnalysis responses (attempts + 1)).2) := by
  rw [pollForAnalysis, dif_neg (by omega : ¬ 30 < attempts)]
  rcases hrc : responses attempts with _ | _ | _
  · exact absurd hrc hr
  · rfl
  · rfl

theorem pollForAnalysis_trace_bound (responses : ℕ → PollOutcome) :
    ∀ n attempts, 31 - attempts ≤ n →
      (pollForAnalysis responses attempts).2.length ≤ 31 - attempts ∧
      ∀ e ∈ (pollForAnalysis responses attempts).2,
        e.1 = POLL_DELAY_MS ∧ attempts ≤ e.2 ∧ e.2 ≤ 30 := by
  intro n
  induction n with
  | zero =>
    intro attempts h
    rw [pollForAnalysis_timeout responses attempts (by omega)]
    simp
  | succ n ih =>
    intro attempts h
    by_cases h30 : 30 < attempts
    · rw [pollForAnalysis_timeout responses attempts h30]
      simp
    · have hle : attempts ≤ 30 := by omega
      rcases hrc : responses attempts with _ | _ | _
      · rw [pollForAnalysis_found responses attempts hle hrc]
        refine ⟨by simp; omega, ?_⟩
        intro e he
        simp only [List.mem_singleton] at he
        subst he
        exact ⟨rfl, le_refl _, hle⟩
      · rw [pollForAnalysis_continue responses attempts hle (by rw [hrc]; simp)]
        rcases ih (attempts + 1) (by omega) with ⟨hlen, htr⟩
        refine ⟨by simp only [List.length_cons]; omega, ?_⟩
        intro e he
        rcases List.mem_cons.mp he with rfl | he
        · exact ⟨rfl, le_refl _, hle⟩
        · rcases htr e he with ⟨h1, h2, h3⟩
          exact ⟨h1, by omega, h3⟩
      · rw [pollForAnalysis_continue responses attempts hle (by rw [hrc]; simp)]
        rcases ih (attempts + 1) (by omega) with ⟨hlen, htr⟩
        refine ⟨by simp only [List.length_cons]; omega, ?_⟩
        intro e he
        rcases List.mem_cons.mp he with rfl | he
        · exact ⟨rfl, le_refl _, hle⟩
        · rcases htr e he with ⟨h1, h2, h3⟩
          exact ⟨h1, by omega, h3⟩

/-- Claim C10: the polling loop terminates and is bounded: attempts above 30
throw the timeout error immediately (no further query); at most 31 queries
happen overall, at attempt numbers 0 through 30, each preceded by a single
2000 ms delay; and on an errored or empty query the loop continues with the
next attempt. -/
theorem claim_C10_poll_bounded (responses : ℕ → PollOutcome)
    (attempts : ℕ) :
    (30 < attempts →
      pollForAnalysis responses attempts = (PollResult.timedOut, [])) ∧
    (attempts ≤ 30 → responses attempts ≠ PollOutcome.found →
      pollForAnalysis responses attempts =
        ((pollForAnalysis responses (attempts + 1)).1,
          (POLL_DELAY_MS, attempts) ::
            (pollForAnalysis responses (attempts + 1)).2)) ∧
    (pollForAnalysis responses 0).2.length ≤ 31 ∧
    (∀ e ∈ (pollForAnalysis responses 0).2, e.1 = 2000 ∧ e.2 ≤ 30) := by
  refine ⟨pollForAnalysis_timeout responses attempts,
    pollForAnalysis_continue responses attempts, ?_, ?_⟩
  · simpa using (pollForAnalysis_trace_bound responses 31 0 (by omega)).1
  · intro e he
    rcases (pollForAnalysis_trace_bound responses 31 0 (by omega)).2 e he with
      ⟨h1, _, h3⟩
    exact ⟨h1, h3⟩

/-- Claim C10, witness: the bound theorem applied to the constant `null`
response sequence, at attempts 31 (timeout) and 0 (one more poll). -/
theorem claim_C10_poll_bounded_witness :
    (30 < 31 ∧
      pollForAnalysis (fun _ => PollOutcome.notYet) 31 =
        (PollResult.timedOut, [])) ∧
    ((0 : ℕ) ≤ 30 ∧
      pollForAnalysis (fun _ => PollOutcome.notYet) 0 =
        ((pollForAnalysis (fun _ => PollOutcome.notYet) 1).1,
          (POLL_DELAY_MS, 0) ::
            (pollForAnalysis (fun _ => PollOutcome.notYet) 1).2)) := by
  constructor
  · exact ⟨by omega,
      (claim_C10_poll_bounded (fun _ => PollOutcome.notYet) 31).1 (by omega)⟩
  · exact ⟨by omega,
      (claim_C10_poll_bounded (fun _ => PollOutcome.notYet) 0).2.1 (by omega)
        (by simp)⟩

end Lab3
